import Mathlib

/-!
Verification of the Central Florida Events application core (`src/app.js`)
against its natural-language specification.

The JavaScript source is shallowly embedded: JS numbers used as prices and
ids become `ℚ`, epoch instants become `ℤ` milliseconds, the DOM and the
environment (timezone, clock, random ids, URL resolution) become explicit
parameters, and fallible operations return `Option`/`Except`.
-/

namespace CFE

/-! ## Calendar and date utilities

The app manipulates dates through the JS `Date` API.  We model an instant
as an integer count of milliseconds since the Unix epoch and a timezone as
an offset in minutes east of UTC (Orlando in November is `-300`).
Calendar conversion uses the standard civil-from-days / days-from-civil
algorithms.
-/

def isLeapYear (y : Int) : Bool :=
  (Int.emod y 4 == 0 && Int.emod y 100 != 0) || Int.emod y 400 == 0

def daysInMonth (y : Int) (m : Nat) : Nat :=
  match m with
  | 1 => 31 | 2 => if isLeapYear y then 29 else 28
  | 3 => 31 | 4 => 30 | 5 => 31 | 6 => 30 | 7 => 31
  | 8 => 31 | 9 => 30 | 10 => 31 | 11 => 30 | 12 => 31
  | _ => 0

/-- Day count since 1970-01-01 of a civil date (the standard Hinnant algorithm). -/
def daysFromCivil (y : Int) (m d : Int) : Int :=
  let y2 : Int := if m ≤ 2 then y - 1 else y
  let era : Int := Int.fdiv y2 400
  let yoe : Int := y2 - era * 400
  let mp : Int := Int.emod (m + 9) 12
  let doy : Int := Int.fdiv (153 * mp + 2) 5 + d - 1
  let doe : Int := yoe * 365 + Int.fdiv yoe 4 - Int.fdiv yoe 100 + doy
  era * 146097 + doe - 719468

/-- Civil date (year, month, day) of a day count since 1970-01-01. -/
def civilFromDays (z0 : Int) : Int × Int × Int :=
  let z : Int := z0 + 719468
  let era : Int := Int.fdiv z 146097
  let doe : Int := z - era * 146097
  let yoe : Int :=
    Int.fdiv (doe - Int.fdiv doe 1460 + Int.fdiv doe 36524 - Int.fdiv doe 146096) 365
  let y : Int := yoe + era * 400
  let doy : Int := doe - (365 * yoe + Int.fdiv yoe 4 - Int.fdiv yoe 100)
  let mp : Int := Int.fdiv (5 * doy + 2) 153
  let d : Int := doy - Int.fdiv (153 * mp + 2) 5 + 1
  let m : Int := if mp < 10 then mp + 3 else mp - 9
  (if m ≤ 2 then y + 1 else y, m, d)

def pad2 (n : Nat) : String :=
  if n < 10 then "0" ++ toString n else toString n

def pad3 (n : Nat) : String :=
  if n < 10 then "00" ++ toString n else if n < 100 then "0" ++ toString n else toString n

def pad4 (n : Nat) : String :=
  if n < 10 then "000" ++ toString n
  else if n < 100 then "00" ++ toString n
  else if n < 1000 then "0" ++ toString n
  else toString n

def intDigits (i : Int) : String :=
  if i < 0 then "-" ++ pad4 i.natAbs else pad4 i.natAbs

/-- Date part of `Date.prototype.toISOString` (always rendered in UTC). -/
def isoDateOfMs (ms : Int) : String :=
  let day := Int.fdiv ms 86400000
  let c := civilFromDays day
  intDigits c.1 ++ "-" ++ pad2 c.2.1.toNat ++ "-" ++ pad2 c.2.2.toNat

/-- Full `toISOString` rendering of an instant. -/
def isoDateTimeOfMs (ms : Int) : String :=
  let msOfDay := (Int.emod ms 86400000).toNat
  isoDateOfMs ms ++ "T" ++ pad2 (msOfDay / 3600000) ++ ":" ++
    pad2 (msOfDay / 60000 % 60) ++ ":" ++ pad2 (msOfDay / 1000 % 60) ++ "." ++
    pad3 (msOfDay % 1000) ++ "Z"

/-- Model of the locale time rendering with numeric hour, 2-digit minute and 12-hour clock. -/
def localTime12 (tzMin : Int) (ms : Int) : String :=
  let localMin := (Int.emod (Int.fdiv (ms + tzMin * 60000) 60000) 1440).toNat
  let h24 := localMin / 60
  let h12 := if h24 % 12 == 0 then 12 else h24 % 12
  toString h12 ++ ":" ++ pad2 (localMin % 60) ++ " " ++ (if h24 < 12 then "AM" else "PM")

def digitVal (c : Char) : Option Nat :=
  if c.isDigit then some (c.toNat - 48) else none

def digits2 (a b : Char) : Option Nat := do
  pure ((← digitVal a) * 10 + (← digitVal b))

def digits4 (a b c d : Char) : Option Nat := do
  pure ((← digitVal a) * 1000 + (← digitVal b) * 100 + (← digitVal c) * 10 + (← digitVal d))

def civilValid (y : Int) (mo d : Nat) : Bool :=
  1 ≤ mo && mo ≤ 12 && 1 ≤ d && d ≤ daysInMonth y mo

/-- Model of `new Date(string)` for the ISO-like formats this app produces and
consumes, returning epoch milliseconds.  Per the ECMAScript date-time string
format, a date-only form (`YYYY-MM-DD`) is interpreted as UTC midnight while a
date-time form without a timezone designator (`YYYY-MM-DDTHH:MM[:SS]`) is
interpreted as local time.  Any other string is an invalid date (`none`). -/
def dateParse (tzMin : Int) (s : String) : Option Int :=
  match s.toList with
  | [a, b, c, d, '-', e, f, '-', g, h] => do
    let y ← digits4 a b c d
    let mo ← digits2 e f
    let dy ← digits2 g h
    if civilValid y mo dy then
      pure (daysFromCivil y mo dy * 86400000)
    else none
  | [a, b, c, d, '-', e, f, '-', g, h, 'T', i, j, ':', k, l] => do
    let y ← digits4 a b c d
    let mo ← digits2 e f
    let dy ← digits2 g h
    let hr ← digits2 i j
    let mi ← digits2 k l
    if civilValid y mo dy && hr ≤ 23 && mi ≤ 59 then
      pure (daysFromCivil y mo dy * 86400000 + (hr * 60 + mi) * 60000 - tzMin * 60000)
    else none
  | [a, b, c, d, '-', e, f, '-', g, h, 'T', i, j, ':', k, l, ':', m, n] => do
    let y ← digits4 a b c d
    let mo ← digits2 e f
    let dy ← digits2 g h
    let hr ← digits2 i j
    let mi ← digits2 k l
    let se ← digits2 m n
    if civilValid y mo dy && hr ≤ 23 && mi ≤ 59 && se ≤ 59 then
      pure (daysFromCivil y mo dy * 86400000 + (hr * 60 + mi) * 60000 + se * 1000 - tzMin * 60000)
    else none
  | _ => none

/-! ## Data model

Event records are the plain objects built by `handleEventSubmission`,
`createEventFromJsonLd` and `extractEventsFromHtmlPatterns` in `src/app.js`.
JS numbers (prices, ids) are modelled as `ℚ`.
-/

structure Event where
  id : ℚ
  name : String
  category : String
  description : String
  location : String
  venue : String
  date : String
  time : String
  duration : String
  price : ℚ
  priceCategory : String
  capacity : String
  vibes : List String
  image : String
  personalityTags : List String
  groupSizes : List String
  interactivity : String
  tags : List String
  externalLink : Option String
  source : String
  contactEmail : String
  userSubmitted : Bool
  submittedAt : String
  status : String
deriving DecidableEq

structure Review where
  eventId : ℚ
  rating : Nat
  text : String
  date : String
deriving DecidableEq

/-- The fields of `AppState` in `src/app.js` that the core operations touch.
The JS `Set` of saved ids is modelled as a `Finset`. -/
structure AppState where
  userSubmittedEvents : List Event
  savedEvents : Finset ℚ
  reviews : List Review
  events : List Event
deriving DecidableEq

/-! ## Price categories -/

/-- Price-category chain of `handleEventSubmission` (src/app.js:192-201) and of
the `price` case of `updateScrapedEvent` (src/app.js:822-828): both run
`price === 0 -> free; <= 20 -> budget; <= 50 -> moderate; else premium`. -/
def priceCategoryChainA (price : ℚ) : String :=
  if price = 0 then "free"
  else if price ≤ 20 then "budget"
  else if price ≤ 50 then "moderate"
  else "premium"

/-- Price-category chain of `createEventFromJsonLd` (src/app.js:540-550) and
`extractEventsFromHtmlPatterns` (src/app.js:641-644): initialize to `free`,
then `> 0 && <= 20 -> budget; > 20 && <= 50 -> moderate; > 50 -> premium`. -/
def priceCategoryChainB (price : ℚ) : String :=
  if price > 0 ∧ price ≤ 20 then "budget"
  else if price > 20 ∧ price ≤ 50 then "moderate"
  else if price > 50 then "premium"
  else "free"

/-- Pure threshold function stated by the spec (section 3): price 0 is free,
0 < price <= 20 is budget, 20 < price <= 50 is moderate, price > 50 is
premium. -/
def specPriceCategory (price : ℚ) : String :=
  if price = 0 then "free"
  else if 0 < price ∧ price ≤ 20 then "budget"
  else if 20 < price ∧ price ≤ 50 then "moderate"
  else "premium"

/-! ## Category lookup tables (src/app.js:701-738) -/

def getCategoryEmoji (category : String) : String :=
  match category with
  | "music" => "🎵" | "food" => "🍽️" | "arts" => "🎨" | "sports" => "⚽"
  | "outdoor" => "🌳" | "education" => "📚" | "community" => "🤝"
  | _ => "📅"

def inferPersonalityTags (category : String) : List String :=
  match category with
  | "music" => ["E", "N", "F", "P"]
  | "food" => ["E", "S", "F", "J"]
  | "arts" => ["I", "N", "F", "P"]
  | "sports" => ["E", "S", "T", "J"]
  | "outdoor" => ["E", "S", "F", "P"]
  | "education" => ["I", "N", "T", "J"]
  | "community" => ["E", "S", "F", "J"]
  | _ => ["E", "N", "F", "P"]

/-- Vibe inference table; the description argument is accepted and ignored,
exactly as in `inferVibes` (src/app.js:727-738). -/
def inferVibes (category : String) (_description : String) : List String :=
  match category with
  | "music" => ["energetic", "social", "creative"]
  | "food" => ["relaxed", "social", "indulgent"]
  | "arts" => ["creative", "intellectual", "inspiring"]
  | "sports" => ["energetic", "competitive", "active"]
  | "outdoor" => ["adventurous", "peaceful", "refreshing"]
  | "education" => ["intellectual", "inspiring", "focused"]
  | "community" => ["social", "welcoming", "meaningful"]
  | _ => ["social", "fun"]

/-! ## Event submission form (src/app.js:174-263) -/

/-- The form data read by `handleEventSubmission`; `price` is the result of
parseFloat applied to the eventPrice form field. -/
structure SubmissionForm where
  name : String
  category : String
  description : String
  location : String
  venue : String
  date : String
  time : String
  duration : String
  price : ℚ
  capacity : String
  vibes : List String
  website : Option String
  contactEmail : String

/-- Emoji table local to `handleEventSubmission` (src/app.js:207-215); it
differs from `getCategoryEmoji` on `community` and on the fallback. -/
def submissionCategoryIcon (category : String) : String :=
  match category with
  | "music" => "🎵" | "food" => "🍽️" | "sports" => "⚽" | "arts" => "🎨"
  | "outdoor" => "🌳" | "education" => "📚" | "community" => "👥"
  | _ => "🎉"

/-- The event object built by `handleEventSubmission` (src/app.js:218-243);
`newId` models `Date.now()` and `nowIso` models `new Date().toISOString()`. -/
def submissionEvent (form : SubmissionForm) (newId : ℚ) (nowIso : String) : Event :=
  { id := newId
    name := form.name
    category := form.category
    description := form.description
    location := form.location
    venue := if form.venue = "" then form.location else form.venue
    date := form.date
    time := form.time
    duration := if form.duration = "" then "2 hours" else form.duration
    price := form.price
    priceCategory := priceCategoryChainA form.price
    capacity := form.capacity
    vibes := form.vibes
    image := submissionCategoryIcon form.category
    personalityTags := []
    groupSizes := ["solo", "couple", "small", "large"]
    interactivity := "medium"
    tags := form.category :: form.vibes
    externalLink := form.website
    source := "User Submitted Event"
    contactEmail := form.contactEmail
    userSubmitted := true
    submittedAt := nowIso
    status := "pending" }

/-- State change performed by `handleEventSubmission` (src/app.js:246-249):
the new pending event is appended to the draft list only. -/
def handleEventSubmission (s : AppState) (form : SubmissionForm)
    (newId : ℚ) (nowIso : String) : AppState :=
  { s with userSubmittedEvents := s.userSubmittedEvents ++ [submissionEvent form newId nowIso] }

/-! ## Scraped-draft field edits (src/app.js:817-837) -/

/-- The editable fields offered by the scraped-event preview card
(src/app.js:762-815); `price` carries the already-parsed number. -/
inductive ScrapedField where
  | venue (v : String)
  | date (v : String)
  | time (v : String)
  | price (v : ℚ)
  | category (v : String)
  | description (v : String)
  | externalLink (v : String)

/-- Model of `updateScrapedEvent` (src/app.js:817-837) applied to one cached
draft: the field is assigned, then `priceCategory` is recomputed when the
price changed and the derived fields are recomputed when the category
changed. -/
def updateScrapedEvent (e : Event) : ScrapedField → Event
  | .venue v => { e with venue := v }
  | .date v => { e with date := v }
  | .time v => { e with time := v }
  | .price v => { e with price := v, priceCategory := priceCategoryChainA v }
  | .category v =>
      { e with category := v, image := getCategoryEmoji v,
               personalityTags := inferPersonalityTags v,
               vibes := inferVibes v e.description }
  | .description v => { e with description := v }
  | .externalLink v => { e with externalLink := some v }

/-- Price stored on the draft after `updateScrapedEvent` assigns the field. -/
def newPriceOf (e : Event) : ScrapedField → ℚ
  | .price v => v
  | _ => e.price

/-! ## Moderation workflow (src/app.js:394-434) -/

/-- Assigning `event.status = st` to the first draft found by
`AppState.userSubmittedEvents.find(e => e.id === eventId)`. -/
def setStatusFirst (l : List Event) (eventId : ℚ) (st : String) : List Event :=
  match l with
  | [] => []
  | e :: rest =>
      if e.id = eventId then { e with status := st } :: rest
      else e :: setStatusFirst rest eventId st

/-- Model of `approveEvent` (src/app.js:394-404): when a draft with the id
exists, its status is set to `approved` and the (mutated) event object is
pushed onto the public `events` array unconditionally. -/
def approveEvent (s : AppState) (eventId : ℚ) : AppState :=
  match s.userSubmittedEvents.find? (fun e => e.id == eventId) with
  | none => s
  | some e =>
      { s with
        userSubmittedEvents := setStatusFirst s.userSubmittedEvents eventId "approved"
        events := s.events ++ [{ e with status := "approved" }] }

/-- Model of `rejectEvent` (src/app.js:406-419). -/
def rejectEvent (s : AppState) (eventId : ℚ) : AppState :=
  match s.userSubmittedEvents.find? (fun e => e.id == eventId) with
  | none => s
  | some e =>
      { s with
        userSubmittedEvents := setStatusFirst s.userSubmittedEvents eventId "rejected"
        events := if e.status = "approved" then s.events.filter (fun x => !(x.id == eventId))
                  else s.events }

/-! ## Save toggle (src/app.js:1059-1073) -/

/-- Model of `toggleSaveEvent`: membership of the id in the saved `Set` is
flipped; no other state field is touched. -/
def toggleSaveEvent (s : AppState) (eventId : ℚ) : AppState :=
  if eventId ∈ s.savedEvents then
    { s with savedEvents := s.savedEvents.erase eventId }
  else
    { s with savedEvents := insert eventId s.savedEvents }

/-! ## Environment

Everything the core reads from the host environment: the wall clock, the
timezone, the successive values of `Math.random()`, and URL resolution
(`new URL(href, base)`, whose failure is modelled by `none`).
-/

structure Env where
  tzOffsetMin : Int
  nowMs : Int
  rand : Nat → ℚ
  resolveUrl : String → String → Option String

/-! ## Recency scorer (src/app.js:887-914) -/

/-- The value `Math.floor((eventDate - now) / (1000*60*60*24))` computed by
`calculateEventScore`; `none` models the `NaN` produced by an unparseable
date, for which both range comparisons are false. -/
def daysUntilEvent (env : Env) (e : Event) : Option Int :=
  (dateParse env.tzOffsetMin e.date).map (fun ms => Int.fdiv (ms - env.nowMs) 86400000)

/-- Model of `calculateEventScore` (src/app.js:887-914): base 50, +10 for
user-submitted, +20 or +10 by days until the event, +5 for free, capped by
`Math.min(100, score)`. -/
def calculateEventScore (env : Env) (e : Event) : Nat :=
  let score := 50
  let score := if e.userSubmitted then score + 10 else score
  let score :=
    match daysUntilEvent env e with
    | none => score
    | some d =>
        if 0 ≤ d ∧ d ≤ 7 then score + 20
        else if 7 < d ∧ d ≤ 30 then score + 10
        else score
  let score := if e.priceCategory = "free" then score + 5 else score
  min 100 score

/-- Recency/value score as the spec words it: `min(100, 50 + (10 if
userSubmitted) + (20 if the event is 0-7 whole days from now) + (10 if 8-30
whole days) + (5 if free))`, with a malformed date granting no recency
bonus. -/
def specNoProfileScore (env : Env) (e : Event) : Nat :=
  min 100 (50 + (if e.userSubmitted then 10 else 0) +
    (match daysUntilEvent env e with
     | none => 0
     | some d => if 0 ≤ d ∧ d ≤ 7 then 20 else if 8 ≤ d ∧ d ≤ 30 then 10 else 0) +
    (if e.priceCategory = "free" then 5 else 0))

/-! ## Sentiment classifier (src/app.js:1267-1316) -/

/-- Prefix test on character lists. -/
def isPrefixOfB : List Char → List Char → Bool
  | [], _ => true
  | _ :: _, [] => false
  | a :: as, b :: bs => a == b && isPrefixOfB as bs

/-- Substring test on character lists, the semantics of
`String.prototype.includes`. -/
def containsSub (hay needle : List Char) : Bool :=
  match hay with
  | [] => needle.isEmpty
  | _ :: rest => isPrefixOfB needle hay || containsSub rest needle

def lowerChars (s : String) : List Char :=
  s.toList.map Char.toLower

def positiveWords : List String :=
  ["great", "amazing", "wonderful", "fantastic", "loved", "awesome", "excellent",
   "perfect", "fun", "enjoyed", "beautiful", "incredible"]

def negativeWords : List String :=
  ["bad", "terrible", "awful", "horrible", "disappointing", "worst", "hate",
   "boring", "waste", "overpriced", "crowded", "loud"]

def priceComplaints : List String :=
  ["expensive", "overpriced", "costly", "price", "money", "budget", "afford", "cheap"]

def crowdComplaints : List String :=
  ["crowded", "packed", "busy", "people", "crowd", "too many", "overwhelming"]

def boringComplaints : List String :=
  ["boring", "dull", "uninteresting", "slow", "nothing", "bland", "monotonous"]

/-- Number of keywords of the list occurring (as substrings) in the lowercased
text, as counted by the two `forEach` loops of `analyzeSentiment`. -/
def keywordHits (text : String) (words : List String) : Nat :=
  (words.filter (fun w => containsSub (lowerChars text) w.toList)).length

structure Sentiment where
  sentiment : String
  concerns : List String
  positiveCount : Nat
  negativeCount : Nat
deriving DecidableEq

/-- Model of `analyzeSentiment` (src/app.js:1267-1316). -/
def analyzeSentiment (text : String) : Sentiment :=
  let lowerText := lowerChars text
  let positiveCount := keywordHits text positiveWords
  let negativeCount := keywordHits text negativeWords
  let concerns :=
    (if priceComplaints.any (fun w => containsSub lowerText w.toList) then ["price"] else []) ++
    (if crowdComplaints.any (fun w => containsSub lowerText w.toList) then ["crowd"] else []) ++
    (if boringComplaints.any (fun w => containsSub lowerText w.toList) then ["boring"] else [])
  let sentiment :=
    if positiveCount > negativeCount + 1 then "positive"
    else if negativeCount > positiveCount then "negative"
    else "neutral"
  { sentiment := sentiment, concerns := concerns,
    positiveCount := positiveCount, negativeCount := negativeCount }

/-! ## Recommendation engine (src/app.js:1319-1450) -/

/-- Model of `calculateSimilarity` (src/app.js:1430-1450). -/
def calculateSimilarity (event1 event2 : Event) : Nat :=
  (if event1.category = event2.category then 20 else 0) +
  10 * (event1.vibes.filter (fun v => event2.vibes.contains v)).length +
  (if event1.priceCategory = event2.priceCategory then 15 else 0) +
  (if event1.time = event2.time then 10 else 0) +
  (if event1.interactivity = event2.interactivity then 10 else 0)

/-- Stable insertion used to model `Array.prototype.sort(cmp)`: `le a b`
means `cmp a b <= 0`, and the element is inserted after every element it
need not precede. -/
def insertBy (le : α → α → Bool) (x : α) : List α → List α
  | [] => [x]
  | y :: ys => if le y x then y :: insertBy le x ys else x :: y :: ys

def sortBy (le : α → α → Bool) (l : List α) : List α :=
  l.foldl (fun acc x => insertBy le x acc) []

structure Reco where
  event : Event
  reason : String
  badges : List String
  emoji : String
deriving DecidableEq

/-- Rule 1 of `generateContextualRecommendations` (src/app.js:1324-1342):
for ratings of 4 or more, the three events most similar to the reviewed
event `c`. -/
def rule1 (events : List Event) (cid : ℚ) (c : Event) (rating : Nat) : List Reco :=
  if rating ≥ 4 then
    let pairs := (events.filter (fun e => !(e.id == cid))).map
      (fun e => (e, calculateSimilarity c e))
    let sorted := sortBy (fun a b : Event × Nat => decide (b.2 ≤ a.2)) pairs
    (sorted.take 3).map (fun p =>
      { event := p.1
        reason := "Since you enjoyed " ++ c.name ++ ", you might love this similar " ++
          p.1.category ++ " experience! 🎉"
        badges := ["similar"]
        emoji := "✨" })
  else []

/-- Rule 2 (src/app.js:1345-1362): on a price concern, the two cheapest
free-or-budget events sharing category or a vibe with the reviewed event. -/
def rule2 (events : List Event) (cid : ℚ) (c : Event) (concerns : List String) : List Reco :=
  if concerns.contains "price" then
    let budgetEvents :=
      ((events.filter (fun e =>
          !(e.id == cid) && (e.priceCategory == "free" || e.priceCategory == "budget"))).filter
        (fun e => e.category == c.category || e.vibes.any (fun v => c.vibes.contains v)))
    let sorted := sortBy (fun a b : Event => decide (a.price ≤ b.price)) budgetEvents
    (sorted.take 2).map (fun e =>
      let priceText := if e.price = 0 then "completely free" else "only $" ++ toString e.price
      { event := e
        reason := "We noticed price was a concern. This " ++ e.category ++ " event is " ++
          priceText ++ " and offers a similar vibe without breaking the bank! 💰"
        badges := ["budget-friendly"]
        emoji := "💵" })
  else []

/-- Rule 3 (src/app.js:1364-1380): on a crowd concern, the two best-scoring
small-capacity events sharing category or a vibe. -/
def rule3 (env : Env) (events : List Event) (cid : ℚ) (c : Event)
    (concerns : List String) : List Reco :=
  if concerns.contains "crowd" then
    let intimateEvents :=
      ((events.filter (fun e => !(e.id == cid) && e.capacity == "small")).filter
        (fun e => e.category == c.category || e.vibes.any (fun v => c.vibes.contains v)))
    let sorted := sortBy
      (fun a b : Event => decide (calculateEventScore env b ≤ calculateEventScore env a))
      intimateEvents
    (sorted.take 2).map (fun e =>
      { event := e
        reason := "Looking for something more intimate? This small-capacity event offers a peaceful, uncrowded experience where you can really enjoy the atmosphere. 🌿"
        badges := ["intimate"]
        emoji := "🤫" })
  else []

/-- Rule 4 (src/app.js:1382-1397): on a boring concern, the two best-scoring
highly interactive events. -/
def rule4 (env : Env) (events : List Event) (cid : ℚ) (concerns : List String) : List Reco :=
  if concerns.contains "boring" then
    let interactiveEvents :=
      events.filter (fun e => !(e.id == cid) && e.interactivity == "high")
    let sorted := sortBy
      (fun a b : Event => decide (calculateEventScore env b ≤ calculateEventScore env a))
      interactiveEvents
    (sorted.take 2).map (fun e =>
      { event := e
        reason := "Want more engagement? This highly interactive event lets you participate actively rather than just observe. Get ready for hands-on fun! 🎮"
        badges := ["interactive"]
        emoji := "⚡" })
  else []

/-- Rule 5 (src/app.js:1400-1414): rating of 2 or less with no detected
concern suggests the two best-scoring events of a different category. -/
def rule5 (env : Env) (events : List Event) (cid : ℚ) (c : Event)
    (rating : Nat) (concerns : List String) : List Reco :=
  if rating ≤ 2 ∧ concerns.length = 0 then
    let differentCategory :=
      events.filter (fun e => !(e.id == cid) && !(e.category == c.category))
    let sorted := sortBy
      (fun a b : Event => decide (calculateEventScore env b ≤ calculateEventScore env a))
      differentCategory
    (sorted.take 2).map (fun e =>
      { event := e
        reason := "Sometimes a change of pace is exactly what you need! This " ++ e.category ++
          " event offers a completely different vibe. 🔄"
        badges := ["fresh-perspective"]
        emoji := "🌟" })
  else []

/-- All candidates in the fixed rule order, before deduplication. -/
def candidateRecs (env : Env) (events : List Event) (cid : ℚ) (c : Event)
    (rating : Nat) (concerns : List String) : List Reco :=
  rule1 events cid c rating ++ rule2 events cid c concerns ++
  rule3 env events cid c concerns ++ rule4 env events cid concerns ++
  rule5 env events cid c rating concerns

/-- First-occurrence deduplication by event id, the `seenIds` loop of
src/app.js:1417-1425. -/
def dedupById (seen : List ℚ) : List Reco → List Reco
  | [] => []
  | r :: rest =>
      if r.event.id ∈ seen then dedupById seen rest
      else r :: dedupById (r.event.id :: seen) rest

/-- Model of `generateContextualRecommendations` (src/app.js:1319-1428).
`c` is the event found by `AppState.events.find(e => e.id ===
AppState.currentEventId)` (the JS code would throw before producing a list
if no such event existed), and `concerns` comes from the classifier
output. -/
def generateContextualRecommendations (env : Env) (events : List Event) (cid : ℚ)
    (c : Event) (rating : Nat) (concerns : List String) : List Reco :=
  (dedupById [] (candidateRecs env events cid c rating concerns)).take 4

/-! ## HTML extractor (src/app.js:481-699)

The DOM interface is embedded at the level the code reads it: a document
exposes the parse results of its JSON-LD script blocks (a failed
`JSON.parse` is `none`), the element lists returned by `querySelectorAll`
for the candidate container selectors, and its heading elements.  An
element exposes `extractText` sources and the href of its first anchor.
JavaScript exceptions raised while one block is processed are modelled with
`Except Unit`; the surrounding `try`/`catch` turns them into skips.
-/

inductive Json where
  | jnull
  | jbool (b : Bool)
  | jnum (q : ℚ)
  | jstr (s : String)
  | jarr (xs : List Json)
  | jobj (fields : List (String × Json))

/-- Property read `value[key]`: reading a member of `null` throws, objects
look the key up, and every other value yields `undefined` (`none`). -/
def getMember : Json → String → Except Unit (Option Json)
  | .jnull, _ => .error ()
  | .jobj fields, k => .ok (fields.lookup k)
  | _, _ => .ok none

/-- JavaScript truthiness of a JSON value. -/
def truthy : Json → Bool
  | .jnull => false
  | .jbool b => b
  | .jnum q => !(q == 0)
  | .jstr s => !(s == "")
  | .jarr _ => true
  | .jobj _ => true

/-- Keeps the value only when it is present and truthy, the effect of a JS
`if (x)` or `x || d` on a possibly-undefined member. -/
def truthyOpt (o : Option Json) : Option Json :=
  o.bind (fun j => if truthy j then some j else none)

def containsSubStr (s needle : String) : Bool :=
  containsSub s.toList needle.toList

/-- The at-type guard of src/app.js:494 (strict equality with the string
Event, or a truthy type whose includes finds Event), with `includes` being a
substring test on strings, a membership test on arrays, and a thrown
`TypeError` on other truthy values. -/
def isEventItem (item : Json) : Except Unit Bool := do
  let t? ← getMember item "@type"
  match t? with
  | none => .ok false
  | some (.jstr s) => .ok (s == "Event" || (!(s == "") && containsSubStr s "Event"))
  | some .jnull => .ok false
  | some (.jbool b) => if b then .error () else .ok false
  | some (.jnum q) => if q == 0 then .ok false else .error ()
  | some (.jarr xs) =>
      .ok (xs.any (fun x => match x with | .jstr s => s == "Event" | _ => false))
  | some (.jobj _) => .error ()

def digitsToNat (ds : List Char) : Nat :=
  ds.foldl (fun a c => a * 10 + (c.toNat - 48)) 0

/-- Model of `parseFloat` on a string: optional leading whitespace and sign,
then a decimal number prefix; `none` models `NaN`.  (Exponent suffixes do
not occur in the inputs of this app and are not modelled.) -/
def parseFloatStr (s : String) : Option ℚ :=
  let cs := s.toList.dropWhile (fun c => c.isWhitespace)
  let signed : Int × List Char :=
    match cs with
    | '-' :: r => (-1, r)
    | '+' :: r => (1, r)
    | _ => (1, cs)
  let ip := signed.2.takeWhile (fun c => c.isDigit)
  let rest := signed.2.dropWhile (fun c => c.isDigit)
  let fp :=
    match rest with
    | '.' :: r => r.takeWhile (fun c => c.isDigit)
    | _ => []
  if ip.isEmpty && fp.isEmpty then none
  else
    some (mkRat (signed.1 * ((digitsToNat ip : Int) * 10 ^ fp.length + (digitsToNat fp : Int)))
      (10 ^ fp.length))

/-- Model of `parseFloat(offer.price) || 0` (src/app.js:544): strings are
parsed, numbers pass through, and values whose JS stringification is not
numeric fall to 0. -/
def parseFloatJs (j : Json) : ℚ :=
  match j with
  | .jstr s => (parseFloatStr s).getD 0
  | .jnum q => q
  | _ => 0

/-- String expected from a truthy member whose JS use would stringify or
store it; a truthy non-string here is outside the modelled input space and
is treated as a thrown error (see the module comment). -/
def strOfTruthy (o : Option Json) : Except Unit String :=
  match truthyOpt o with
  | none => .ok ""
  | some (.jstr s) => .ok s
  | some _ => .error ()

def jsSubstring (s : String) (n : Nat) : String :=
  String.mk (s.toList.take n)

/-- Model of `createEventFromJsonLd` (src/app.js:512-585) before its
`catch`; `k` is the index of the `Math.random()` call made for the new
id. -/
def createEventFromJsonLdCore (env : Env) (venue category sourceUrl : String)
    (k : Nat) (jsonData : Json) : Except Unit Event := do
  let name ←
    match truthyOpt (← getMember jsonData "name") with
    | none => Except.ok "Untitled Event"
    | some (.jstr s) => Except.ok s
    | some _ => Except.error ()
  let description ← strOfTruthy (← getMember jsonData "description")
  let dateTime ←
    match truthyOpt (← getMember jsonData "startDate") with
    | none => Except.ok ("", "")
    | some (.jstr s) =>
        match dateParse env.tzOffsetMin s with
        | none => Except.error ()
        | some ms => Except.ok (isoDateOfMs ms, localTime12 env.tzOffsetMin ms)
    | some _ => Except.error ()
  let location ←
    match truthyOpt (← getMember jsonData "location") with
    | none => Except.ok ""
    | some (.jstr s) => Except.ok s
    | some l => do
        match truthyOpt (← getMember l "address") with
        | none => Except.ok ""
        | some (.jstr s) => Except.ok s
        | some addr => do
            let street ← strOfTruthy (← getMember addr "streetAddress")
            let locality ← strOfTruthy (← getMember addr "addressLocality")
            let region ← strOfTruthy (← getMember addr "addressRegion")
            let postal ← strOfTruthy (← getMember addr "postalCode")
            Except.ok (street ++ ", " ++ locality ++ ", " ++ region ++ " " ++ postal).trim
  let price ←
    match truthyOpt (← getMember jsonData "offers") with
    | none => Except.ok (0 : ℚ)
    | some o => do
        let offer ←
          match o with
          | .jarr [] => Except.error ()
          | .jarr (x :: _) => Except.ok x
          | _ => Except.ok o
        match truthyOpt (← getMember offer "price") with
        | none => Except.ok (0 : ℚ)
        | some p => Except.ok (parseFloatJs p)
  let priceCategory := priceCategoryChainB price
  let externalLink ←
    match truthyOpt (← getMember jsonData "url") with
    | none => Except.ok (if sourceUrl == "" then "" else sourceUrl)
    | some (.jstr s) => Except.ok s
    | some _ => Except.error ()
  Except.ok
    { id := (env.nowMs : ℚ) + env.rand k
      name := name
      venue := venue
      category := category
      description := jsSubstring description 500
      location := if location = "" then venue else location
      date := if dateTime.1 = "" then isoDateOfMs env.nowMs else dateTime.1
      time := if dateTime.2 = "" then "TBD" else dateTime.2
      duration := "2-3 hours"
      price := price
      priceCategory := priceCategory
      capacity := "medium"
      image := getCategoryEmoji category
      personalityTags := inferPersonalityTags category
      vibes := inferVibes category description
      groupSizes := ["couple", "small", "large"]
      interactivity := "medium"
      tags := [category, venue.toLower]
      externalLink := some externalLink
      source := "Scraped from " ++ venue
      contactEmail := "admin@searchcentralfl.com"
      userSubmitted := true
      submittedAt := isoDateTimeOfMs env.nowMs
      status := "pending" }

/-- The `catch` of src/app.js:581-584 maps an error to `null`. -/
def createEventFromJsonLd (env : Env) (venue category sourceUrl : String)
    (k : Nat) (jsonData : Json) : Option Event :=
  (createEventFromJsonLdCore env venue category sourceUrl k jsonData).toOption

/-- Processing of the item array of one JSON-LD block
(src/app.js:493-498).  An exception thrown by the type guard aborts the
rest of the block while the events already pushed remain. -/
def processItems (env : Env) (venue category sourceUrl : String) :
    Nat → List Json → List Event
  | _, [] => []
  | k, item :: rest =>
    match isEventItem item with
    | .error _ => []
    | .ok false => processItems env venue category sourceUrl k rest
    | .ok true =>
        match createEventFromJsonLd env venue category sourceUrl k item with
        | none => processItems env venue category sourceUrl k rest
        | some e => e :: processItems env venue category sourceUrl (k + 1) rest

/-- Processing of all JSON-LD blocks (src/app.js:487-502): a block whose
parse failed (`none`) is skipped with a warning; otherwise
`Array.isArray(data) ? data : [data]` is traversed. -/
def processBlocks (env : Env) (venue category sourceUrl : String) :
    Nat → List (Option Json) → List Event
  | _, [] => []
  | k, none :: rest => processBlocks env venue category sourceUrl k rest
  | k, some data :: rest =>
      let eventArray := match data with | .jarr xs => xs | d => [d]
      let evs := processItems env venue category sourceUrl k eventArray
      evs ++ processBlocks env venue category sourceUrl (k + evs.length) rest

/-- One DOM element, seen through the queries the extractor performs on it:
the text content of the first descendant matching a selector, its own text
content, and the `href` of its first anchor. -/
structure Element where
  queryText : String → Option String
  ownText : String
  firstHref : Option String

/-- One parsed document, seen through the queries the extractor performs:
JSON-LD block parse results, `querySelectorAll` for the candidate container
selectors, and the heading elements of levels 1-4. -/
structure Doc where
  jsonLdBlocks : List (Option Json)
  query : String → List Element
  headings : List Element

/-- Model of `extractText` (src/app.js:696-699): the first matching
descendant, else the own text of the element, trimmed. -/
def extractText (element : Element) (selector : String) : String :=
  ((element.queryText selector).getD element.ownText).trim

/-- The ordered candidate container selectors of src/app.js:591-596. -/
def containerSelectors : List String :=
  [".event", ".event-item", ".event-card", "[class*=\"event\"]",
   "[itemtype*=\"Event\"]", "article", ".tribe-events-list-event-row",
   ".eventlist-event"]

/-- First selector with at least one match wins (src/app.js:598-605). -/
def pickContainers (doc : Doc) : List String → List Element
  | [] => []
  | sel :: rest =>
      let elements := doc.query sel
      if elements.isEmpty then pickContainers doc rest else elements

/-- The regex capture `\$?(\d+(?:\.\d{2})?)` of src/app.js:636 applied to the
price text: value of the first digit run, extended by a two-digit fraction
when one directly follows. -/
def findFirstNumber : List Char → Option ℚ
  | [] => none
  | c :: rest =>
      if c.isDigit then
        let ds := (c :: rest).takeWhile (fun x => x.isDigit)
        let tail := (c :: rest).dropWhile (fun x => x.isDigit)
        some (match tail with
          | '.' :: d1 :: d2 :: _ =>
              if d1.isDigit && d2.isDigit then
                mkRat ((digitsToNat ds : Int) * 100 + (digitsToNat [d1, d2] : Int)) 100
              else (digitsToNat ds : ℚ)
          | _ => (digitsToNat ds : ℚ))
      else findFirstNumber rest

/-- One draft built by the pattern fallback loop (src/app.js:614-691) from
the element at position `idx`. -/
def patternEvent (env : Env) (venue category sourceUrl : String)
    (idx : Nat) (element : Element) : Event :=
  let name0 := extractText element "h1, h2, h3, h4, .event-title, [class*=\"title\"]"
  let name := if name0 = "" then "Event " ++ toString (idx + 1) else name0
  let description := extractText element "p, .description, [class*=\"description\"]"
  let dateText := extractText element "time, .date, [class*=\"date\"]"
  let timeText := extractText element ".time, [class*=\"time\"]"
  let priceText := extractText element ".price, [class*=\"price\"]"
  let date0 :=
    if dateText = "" then ""
    else match dateParse env.tzOffsetMin dateText with
      | none => ""
      | some ms => isoDateOfMs ms
  let date := if date0 = "" then isoDateOfMs env.nowMs else date0
  let price := (findFirstNumber priceText.toList).getD 0
  let priceCategory := priceCategoryChainB price
  let externalLink :=
    match element.firstHref with
    | none => sourceUrl
    | some href =>
        if href.startsWith "http" then href
        else if !(sourceUrl == "") && !(href == "") then
          (env.resolveUrl href sourceUrl).getD sourceUrl
        else sourceUrl
  { id := (env.nowMs : ℚ) + env.rand idx + (idx : ℚ)
    name := jsSubstring name 200
    venue := venue
    category := category
    description :=
      if jsSubstring description 500 = "" then "No description available"
      else jsSubstring description 500
    location := venue
    date := date
    time := if timeText = "" then "TBD" else timeText
    duration := "2-3 hours"
    price := price
    priceCategory := priceCategory
    capacity := "medium"
    image := getCategoryEmoji category
    personalityTags := inferPersonalityTags category
    vibes := inferVibes category description
    groupSizes := ["couple", "small", "large"]
    interactivity := "medium"
    tags := [category, venue.toLower]
    externalLink := some externalLink
    source := "Scraped from " ++ venue
    contactEmail := "admin@searchcentralfl.com"
    userSubmitted := true
    submittedAt := isoDateTimeOfMs env.nowMs
    status := "pending" }

def mapWithIndex (f : Nat → α → β) : Nat → List α → List β
  | _, [] => []
  | i, a :: as => f i a :: mapWithIndex f (i + 1) as

/-- The `eventElements.forEach` loop of src/app.js:614-691; in the model no
per-element exception can occur, so every element yields one draft. -/
def extractFromElements (env : Env) (venue category sourceUrl : String)
    (elements : List Element) : List Event :=
  mapWithIndex (patternEvent env venue category sourceUrl) 0 elements

/-- Model of `extractEventsFromHtmlPatterns` (src/app.js:587-694): the first
matching container selector, else the first ten headings. -/
def extractEventsFromHtmlPatterns (env : Env) (doc : Doc)
    (venue category sourceUrl : String) : List Event :=
  let eventElements := pickContainers doc containerSelectors
  let eventElements :=
    if eventElements.isEmpty then doc.headings.take 10 else eventElements
  extractFromElements env venue category sourceUrl eventElements

/-- Model of `extractEventsFromHtml` (src/app.js:481-510): JSON-LD first,
pattern fallback only when that yields nothing. -/
def extractEventsFromHtml (env : Env) (doc : Doc)
    (venue category sourceUrl : String) : List Event :=
  let events := processBlocks env venue category sourceUrl 0 doc.jsonLdBlocks
  if events.isEmpty then extractEventsFromHtmlPatterns env doc venue category sourceUrl
  else events

/-! ## Profile-aware scorer (spec section 4.1, profile-present mode) -/

structure UserProfile where
  personalityTraits : List String
  vibes : List String
  budget : String
  groupSize : String
  timePreference : String
deriving DecidableEq

/-- Modelled from the spec: the explicit adjacent-tier half-credit pairs of
section 4.1 (free-budget, budget-moderate, premium-moderate), the
profile-present scorer being absent from src/. -/
def budgetAdjacent (a b : String) : Bool :=
  (a == "free" && b == "budget") || (a == "budget" && b == "free") ||
  (a == "budget" && b == "moderate") || (a == "moderate" && b == "budget") ||
  (a == "premium" && b == "moderate") || (a == "moderate" && b == "premium")

/-- Modelled from the spec: the five sub-scores of the profile-present
scorer (spec section 4.1), which is absent from src/.  To keep the
half-point budget credit (7.5) exact, every sub-score is represented
doubled: personality `(matching traits / 4) * 40` becomes `20 * matching`,
vibe `(matching vibes / min(event.vibes.length, 3)) * 30` becomes
`60 * matching / min(len, 3)` (an exact division, zero-vibe events
contributing 0), budget 15 / 7.5 becomes 30 / 15, group 10 becomes 20 and
time 5 becomes 10. -/
def subScores2 (e : Event) (p : UserProfile) : Nat :=
  let matchingTraits := (p.personalityTraits.filter
    (fun t => e.personalityTags.contains t)).length
  let personality2 := 20 * matchingTraits
  let matchingVibes := (e.vibes.filter (fun v => p.vibes.contains v)).length
  let vibe2 :=
    if e.vibes.length = 0 then 0 else 60 * matchingVibes / min e.vibes.length 3
  let budget2 :=
    if e.priceCategory == p.budget then 30
    else if budgetAdjacent e.priceCategory p.budget then 15
    else 0
  let group2 := if e.groupSizes.contains p.groupSize then 20 else 0
  let time2 := if e.time == p.timePreference then 10 else 0
  personality2 + vibe2 + budget2 + group2 + time2

/-- Modelled from the spec: final profile-present score, `round` (half up)
of the sum of the five sub-scores; on the doubled representation this is
`(sum2 + 1) / 2`. -/
def scoreWithProfile (e : Event) (p : UserProfile) : Nat :=
  (subScores2 e p + 1) / 2

/-! ## Concrete sample data used by witnesses and counterexamples -/

def sampleEvent : Event :=
  { id := 1, name := "Sample Concert", category := "music", description := "desc"
    location := "Orlando", venue := "Hall", date := "2025-11-20", time := "evening"
    duration := "2 hours", price := 0, priceCategory := "free", capacity := "medium"
    vibes := ["energetic"], image := "🎵", personalityTags := ["E", "N"]
    groupSizes := ["solo", "couple"], interactivity := "medium", tags := ["music"]
    externalLink := none, source := "User Submitted Event", contactEmail := "a@b.c"
    userSubmitted := true, submittedAt := "2025-11-01T00:00:00.000Z", status := "pending" }

/-- State holding one already-approved draft that is also in the public view. -/
def approvedState : AppState :=
  { userSubmittedEvents := [{ sampleEvent with status := "approved" }]
    savedEvents := {}
    reviews := []
    events := [{ sampleEvent with status := "approved" }] }

/-! ## C10: the save toggle is an involution on the saved-id set -/

/-- C10: one invocation of `toggleSaveEvent` flips the membership of exactly
the given id in the saved set, leaves every other id and the events,
reviews and draft collections unchanged, and two invocations with the same
id restore the original state. -/
theorem toggleSaveEvent_involution (s : AppState) (eventId : ℚ) :
    (eventId ∈ (toggleSaveEvent s eventId).savedEvents ↔ eventId ∉ s.savedEvents) ∧
    (∀ j : ℚ, j ≠ eventId →
      (j ∈ (toggleSaveEvent s eventId).savedEvents ↔ j ∈ s.savedEvents)) ∧
    toggleSaveEvent (toggleSaveEvent s eventId) eventId = s ∧
    (toggleSaveEvent s eventId).events = s.events ∧
    (toggleSaveEvent s eventId).reviews = s.reviews ∧
    (toggleSaveEvent s eventId).userSubmittedEvents = s.userSubmittedEvents := by
  by_cases h : eventId ∈ s.savedEvents
  · refine ⟨?_, ?_, ?_, ?_, ?_, ?_⟩ <;>
      simp [toggleSaveEvent, h, Finset.mem_erase, Finset.insert_erase]
    intro j hj
    simp [hj]
  · refine ⟨?_, ?_, ?_, ?_, ?_, ?_⟩ <;>
      simp [toggleSaveEvent, h, Finset.mem_insert, Finset.erase_insert]
    intro j hj
    simp [hj]

/-- Witness for C10 at a concrete state and id. -/
theorem toggleSaveEvent_involution_witness :
    ((2 : ℚ) ≠ (1 : ℚ)) ∧
    ((2 : ℚ) ∈ (toggleSaveEvent { approvedState with savedEvents := {2} } 1).savedEvents ↔
      (2 : ℚ) ∈ ({2} : Finset ℚ)) :=
  ⟨by norm_num,
   (toggleSaveEvent_involution { approvedState with savedEvents := {2} } 1).2.1 2 (by norm_num)⟩

/-! ## C1: re-approving an already-approved event -/

/-- Counterexample to C1: calling `approveEvent` on a state whose draft with
id 1 is already approved grows the public view by one and leaves it with a
duplicated id, so the re-invocation is not a no-op on the public view. -/
theorem approveEvent_reapprove_counterexample :
    (approveEvent approvedState 1).events.length ≠ approvedState.events.length ∧
    ¬ ((approveEvent approvedState 1).events.map (fun e => e.id)).Nodup := by
  constructor
  · decide
  · decide

/-- C1 as amended: `approveEvent` is a no-op only when no draft carries the
id; whenever a draft with the id exists — already approved or not — the
event is appended to the public view again, so re-approving an approved
event increases the public event count by one and inserts a second entry
with the same id. -/
theorem approveEvent_reapprove_appends (s : AppState) (eventId : ℚ) (e : Event)
    (hfind : s.userSubmittedEvents.find? (fun x => x.id == eventId) = some e)
    (_happroved : e.status = "approved") :
    (approveEvent s eventId).events = s.events ++ [{ e with status := "approved" }] ∧
    (approveEvent s eventId).events.length = s.events.length + 1 := by
  unfold approveEvent
  rw [hfind]
  simp

/-- Witness for the amended C1 at the concrete approved state. -/
theorem approveEvent_reapprove_appends_witness :
    (approveEvent approvedState 1).events.length = approvedState.events.length + 1 :=
  (approveEvent_reapprove_appends approvedState 1 { sampleEvent with status := "approved" }
    (by decide) (by decide)).2

/-! ## C2: priceCategory is the threshold function of price -/

theorem priceCategoryChainA_eq_spec (p : ℚ) (hp : 0 ≤ p) :
    priceCategoryChainA p = specPriceCategory p := by
  unfold priceCategoryChainA specPriceCategory
  by_cases h0 : p = 0
  · simp [h0]
  · have hpos : 0 < p := lt_of_le_of_ne hp (Ne.symm h0)
    by_cases h20 : p ≤ 20
    · simp [h0, h20, hpos]
    · have h20lt : 20 < p := not_le.mp h20
      by_cases h50 : p ≤ 50
      · simp [h0, h20, h20lt, h50]
      · simp [h0, h20, h50]

theorem priceCategoryChainB_eq_spec (p : ℚ) (hp : 0 ≤ p) :
    priceCategoryChainB p = specPriceCategory p := by
  unfold priceCategoryChainB specPriceCategory
  by_cases h0 : p = 0
  · simp [h0]
    norm_num
  · have hpos : 0 < p := lt_of_le_of_ne hp (Ne.symm h0)
    by_cases h20 : p ≤ 20
    · simp [h0, h20, hpos]
    · have h20lt : 20 < p := not_le.mp h20
      by_cases h50 : p ≤ 50
      · simp [h0, h20, h20lt, h50]
      · simp [h0, h20, h50, not_le.mp h50, hpos]

/-- C2: the event built by the submission form stores the threshold category
of its non-negative price, and a scraped-draft field edit preserves the
invariant: editing the price recomputes the category from the new
(non-negative) price, and editing any other field leaves price and category
untouched. -/
theorem priceCategory_invariant
    (form : SubmissionForm) (newId : ℚ) (nowIso : String) (hform : 0 ≤ form.price)
    (e : Event) (f : ScrapedField)
    (hinv : e.priceCategory = specPriceCategory e.price)
    (hnew : 0 ≤ newPriceOf e f) :
    (submissionEvent form newId nowIso).priceCategory =
      specPriceCategory (submissionEvent form newId nowIso).price ∧
    (updateScrapedEvent e f).priceCategory =
      specPriceCategory (updateScrapedEvent e f).price := by
  constructor
  · exact priceCategoryChainA_eq_spec form.price hform
  · cases f with
    | price v => exact priceCategoryChainA_eq_spec v hnew
    | venue v => exact hinv
    | date v => exact hinv
    | time v => exact hinv
    | category v => exact hinv
    | description v => exact hinv
    | externalLink v => exact hinv

/-- Witness for C2: a concrete form with price 25 and a concrete price edit
to 60 on a draft satisfying the invariant. -/
theorem priceCategory_invariant_witness :
    (submissionEvent
        { name := "N", category := "music", description := "", location := "L"
          venue := "", date := "2025-12-01", time := "evening", duration := ""
          price := 25, capacity := "medium", vibes := ["energetic"]
          website := none, contactEmail := "a@b.c" } 7 "now").priceCategory =
      specPriceCategory 25 ∧
    (updateScrapedEvent sampleEvent (ScrapedField.price 60)).priceCategory =
      specPriceCategory (updateScrapedEvent sampleEvent (ScrapedField.price 60)).price := by
  have h := priceCategory_invariant
    { name := "N", category := "music", description := "", location := "L"
      venue := "", date := "2025-12-01", time := "evening", duration := ""
      price := 25, capacity := "medium", vibes := ["energetic"]
      website := none, contactEmail := "a@b.c" } 7 "now" (by norm_num)
    sampleEvent (ScrapedField.price 60) (by decide) (by norm_num [newPriceOf])
  exact h

/-! ## C3: the recency/value scorer -/

/-- C3: `calculateEventScore` equals the spec formula `min(100, 50 + 10
[user-submitted] + 20 [0-7 whole days away] + 10 [8-30 whole days] + 5
[free])`, an unparseable date yields no recency bonus instead of an
exception, and the result is an integer in [0, 100]. -/
theorem calculateEventScore_spec (env : Env) (e : Event) :
    calculateEventScore env e = specNoProfileScore env e ∧
    calculateEventScore env e ≤ 100 := by
  have heq : calculateEventScore env e = specNoProfileScore env e := by
    cases h : daysUntilEvent env e <;>
      simp only [calculateEventScore, specNoProfileScore, h, Nat.min_def] <;>
      split_ifs <;> first | decide | omega
  exact ⟨heq, heq ▸ Nat.min_le_left 100 _⟩

/-! ## C5: the asymmetric sentiment margin rule -/

/-- C5: `analyzeSentiment` classifies positive exactly when positive hits
exceed negative hits plus one, negative exactly when it is not positive and
negative hits exceed positive hits, and neutral otherwise; in particular
any text with 2 positive hits and 1 negative hit is neutral. -/
theorem analyzeSentiment_margin_rule (text : String) :
    ((analyzeSentiment text).sentiment = "positive" ↔
      keywordHits text positiveWords > keywordHits text negativeWords + 1) ∧
    ((analyzeSentiment text).sentiment = "negative" ↔
      (¬ keywordHits text positiveWords > keywordHits text negativeWords + 1) ∧
      keywordHits text negativeWords > keywordHits text positiveWords) ∧
    ((analyzeSentiment text).sentiment = "neutral" ↔
      (¬ keywordHits text positiveWords > keywordHits text negativeWords + 1) ∧
      ¬ keywordHits text negativeWords > keywordHits text positiveWords) ∧
    (keywordHits text positiveWords = 2 → keywordHits text negativeWords = 1 →
      (analyzeSentiment text).sentiment = "neutral") := by
  refine ⟨?_, ?_, ?_, ?_⟩ <;>
    simp only [analyzeSentiment] <;>
    split_ifs <;> simp_all <;> omega

/-- Witness for C5: the review text "great fun but loud" has exactly the
positive hits great and fun and the negative hit loud, and is classified
neutral by the margin rule. -/
theorem analyzeSentiment_margin_witness :
    keywordHits "great fun but loud" positiveWords = 2 ∧
    keywordHits "great fun but loud" negativeWords = 1 ∧
    (analyzeSentiment "great fun but loud").sentiment = "neutral" :=
  ⟨by decide, by decide,
   (analyzeSentiment_margin_rule "great fun but loud").2.2.2 (by decide) (by decide)⟩

/-! ## C6: the profile-aware scorer (modelled from the spec) -/

/-- Event all four of whose vibes match the profile: the vibe sub-score
becomes `(4 / min(4,3)) * 30 = 40`, past its weight of 30. -/
def overfullVibeEvent : Event :=
  { sampleEvent with
    vibes := ["energetic", "social", "creative", "relaxed"]
    personalityTags := ["E", "N", "F", "P"]
    priceCategory := "budget"
    groupSizes := ["solo"]
    time := "evening" }

def matchingProfile : UserProfile :=
  { personalityTraits := ["E", "N", "F", "P"]
    vibes := ["energetic", "social", "creative", "relaxed"]
    budget := "budget"
    groupSize := "solo"
    timePreference := "evening" }

/-- Counterexample to C6: a well-formed profile (exactly 4 traits) and an
event with four matching vibes score 110, so the profile-present scorer is
not bounded by 100 as claimed. -/
theorem scoreWithProfile_counterexample :
    matchingProfile.personalityTraits.length = 4 ∧
    scoreWithProfile overfullVibeEvent matchingProfile = 110 ∧
    ¬ scoreWithProfile overfullVibeEvent matchingProfile ≤ 100 := by
  refine ⟨by decide, by decide, by decide⟩

/-- C6 as amended: the scorer returns the rounded sum of the five weighted
sub-scores, and the result is an integer in [0, 100] whenever the profile
has exactly 4 personality traits and the event has at most 3 vibes; with
more than 3 matching vibes the vibe sub-score exceeds its weight of 30 and
the total can reach 110. -/
theorem scoreWithProfile_bounded (e : Event) (p : UserProfile)
    (htraits : p.personalityTraits.length = 4) (hvibes : e.vibes.length ≤ 3) :
    scoreWithProfile e p ≤ 100 := by
  have h1 : (p.personalityTraits.filter
      (fun t => e.personalityTags.contains t)).length ≤ 4 :=
    le_trans (List.length_filter_le _ _) (le_of_eq htraits)
  have h2 : (e.vibes.filter (fun v => p.vibes.contains v)).length ≤ e.vibes.length :=
    List.length_filter_le _ _
  have hv : (if e.vibes.length = 0 then 0 else
      60 * (e.vibes.filter (fun v => p.vibes.contains v)).length / min e.vibes.length 3)
        ≤ 60 := by
    split_ifs with h0
    · omega
    · have hmin : min e.vibes.length 3 = e.vibes.length := by omega
      rw [hmin]
      calc 60 * (e.vibes.filter (fun v => p.vibes.contains v)).length / e.vibes.length
          ≤ 60 * e.vibes.length / e.vibes.length :=
            Nat.div_le_div_right (Nat.mul_le_mul_left 60 h2)
        _ = 60 := Nat.mul_div_cancel 60 (Nat.pos_of_ne_zero h0)
  have hb : (if e.priceCategory == p.budget then 30
      else if budgetAdjacent e.priceCategory p.budget then 15 else 0) ≤ 30 := by
    split_ifs <;> omega
  have hg : (if e.groupSizes.contains p.groupSize then 20 else 0) ≤ 20 := by
    split_ifs <;> omega
  have ht : (if e.time == p.timePreference then 10 else 0) ≤ 10 := by
    split_ifs <;> omega
  simp only [scoreWithProfile, subScores2]
  omega

/-- Witness for the amended C6 at a concrete (profile, event) pair with at
most 3 event vibes. -/
theorem scoreWithProfile_bounded_witness :
    sampleEvent.vibes.length ≤ 3 ∧
    scoreWithProfile sampleEvent matchingProfile ≤ 100 :=
  ⟨by decide, scoreWithProfile_bounded sampleEvent matchingProfile (by decide) (by decide)⟩

/-! ## C8: heading fallback of the pattern extractor -/

theorem pickContainers_eq_nil (doc : Doc) (sels : List String)
    (h : sels.all (fun sel => (doc.query sel).isEmpty) = true) :
    pickContainers doc sels = [] := by
  induction sels with
  | nil => rfl
  | cons sel rest ih =>
      simp only [List.all_cons, Bool.and_eq_true] at h
      simp only [pickContainers, h.1, if_pos]
      exact ih h.2

theorem length_mapWithIndex (f : Nat → α → β) (i : Nat) (l : List α) :
    (mapWithIndex f i l).length = l.length := by
  induction l generalizing i with
  | nil => rfl
  | cons a as ih => simp [mapWithIndex, ih]

theorem length_extractFromElements (env : Env) (venue category sourceUrl : String)
    (elements : List Element) :
    (extractFromElements env venue category sourceUrl elements).length = elements.length :=
  length_mapWithIndex _ 0 elements

/-- C8: when the structured-data pass yields nothing and no candidate
container selector matches, extraction runs the heading strategy on the
first ten headings, producing one draft per heading — three drafts for a
three-heading document. -/
theorem extractEventsFromHtml_heading_fallback (env : Env) (doc : Doc)
    (venue category sourceUrl : String)
    (hjson : processBlocks env venue category sourceUrl 0 doc.jsonLdBlocks = [])
    (hsel : containerSelectors.all (fun sel => (doc.query sel).isEmpty) = true) :
    extractEventsFromHtml env doc venue category sourceUrl =
      extractFromElements env venue category sourceUrl (doc.headings.take 10) ∧
    (extractEventsFromHtml env doc venue category sourceUrl).length =
      min doc.headings.length 10 := by
  have hmain : extractEventsFromHtml env doc venue category sourceUrl =
      extractFromElements env venue category sourceUrl (doc.headings.take 10) := by
    unfold extractEventsFromHtml extractEventsFromHtmlPatterns
    rw [hjson, pickContainers_eq_nil doc containerSelectors hsel]
    simp
  refine ⟨hmain, ?_⟩
  rw [hmain, length_extractFromElements, List.length_take, Nat.min_comm]

/-- Document with three headings, no JSON-LD and no container matches. -/
def threeHeadingDoc : Doc :=
  { jsonLdBlocks := []
    query := fun _ => []
    headings :=
      [{ queryText := fun _ => none, ownText := "Concert A", firstHref := none },
       { queryText := fun _ => none, ownText := "Concert B", firstHref := none },
       { queryText := fun _ => none, ownText := "Concert C", firstHref := none }] }

def plainEnv : Env :=
  { tzOffsetMin := 0, nowMs := 0, rand := fun _ => 0, resolveUrl := fun _ _ => none }

/-- Witness for C8: the three-heading document yields exactly three drafts. -/
theorem extractEventsFromHtml_heading_fallback_witness :
    (extractEventsFromHtml plainEnv threeHeadingDoc "Venue" "music" "").length = 3 := by
  have h := (extractEventsFromHtml_heading_fallback plainEnv threeHeadingDoc
    "Venue" "music" "" (by rfl) (by rfl)).2
  simpa using h

/-! ## C9: extractor failure semantics -/

theorem processBlocks_skips_failed (env : Env) (venue category sourceUrl : String)
    (k : Nat) (blocks : List (Option Json)) :
    processBlocks env venue category sourceUrl k blocks =
      processBlocks env venue category sourceUrl k (blocks.filter (fun b => b.isSome)) := by
  induction blocks generalizing k with
  | nil => rfl
  | cons b rest ih =>
      cases b with
      | none => simpa [processBlocks, List.filter] using ih k
      | some data => simp [processBlocks, List.filter, ih]

/-- C9: extraction is a total function of the document (the model never
raises): blocks whose content failed to parse are skipped and extraction
continues exactly as if they were absent, and the result is empty precisely
when both the structured-data strategy and the pattern strategy produce
nothing — an empty list is an ordinary return value. -/
theorem extractEventsFromHtml_failure_semantics (env : Env) (doc : Doc)
    (venue category sourceUrl : String) :
    (extractEventsFromHtml env doc venue category sourceUrl =
      extractEventsFromHtml env
        { doc with jsonLdBlocks := doc.jsonLdBlocks.filter (fun b => b.isSome) }
        venue category sourceUrl) ∧
    (extractEventsFromHtml env doc venue category sourceUrl = [] ↔
      processBlocks env venue category sourceUrl 0 doc.jsonLdBlocks = [] ∧
      extractEventsFromHtmlPatterns env doc venue category sourceUrl = []) := by
  constructor
  · unfold extractEventsFromHtml
    rw [← processBlocks_skips_failed]
    rfl
  · unfold extractEventsFromHtml
    cases h : processBlocks env venue category sourceUrl 0 doc.jsonLdBlocks with
    | nil => simp
    | cons x xs => simp

/-! ## C7: the structured-data Jazz Night scenario -/

/-- The single JSON-LD block of the C7 scenario. -/
def jazzBlock : Json :=
  Json.jobj
    [("@type", Json.jstr "Event"),
     ("name", Json.jstr "Jazz Night"),
     ("startDate", Json.jstr "2025-11-15T20:00"),
     ("offers", Json.jobj [("price", Json.jstr "25")])]

def jazzDoc : Doc :=
  { jsonLdBlocks := [some jazzBlock], query := fun _ => [], headings := [] }

/-- The embedding environment of the app in its home region: Orlando is 300
minutes west of UTC in November (EST). -/
def orlandoEnv : Env :=
  { tzOffsetMin := -300, nowMs := 1762000000000, rand := fun _ => 0
    resolveUrl := fun _ _ => none }

/-- C7 (divergence witness): extracting the Jazz Night block in the
timezone of the app itself stores the date 2025-11-16, not the claimed
2025-11-15, because `new Date("2025-11-15T20:00")` is parsed as local time
and `toISOString` re-renders it in UTC; the other claimed fields (price 25,
priceCategory moderate, status pending, exactly one draft) do hold. -/
theorem jazzNight_extraction_orlando :
    (extractEventsFromHtml orlandoEnv jazzDoc "Blue Note" "music"
        "https://example.com/events").map
      (fun e => (e.name, e.date, e.price, e.priceCategory, e.status)) =
    [("Jazz Night", "2025-11-16", (25 : ℚ), "moderate", "pending")] := by
  decide

/-! ## C4: the recommendation list contract -/

theorem mem_insertBy {le : α → α → Bool} {x a : α} {l : List α} :
    a ∈ insertBy le x l ↔ a = x ∨ a ∈ l := by
  induction l with
  | nil => simp [insertBy]
  | cons y ys ih =>
      simp only [insertBy]
      split_ifs
      · simp only [List.mem_cons, ih]
        tauto
      · simp only [List.mem_cons]
        try tauto

theorem mem_sortBy_aux {le : α → α → Bool} (l : List α) :
    ∀ (acc : List α) (a : α),
      (a ∈ l.foldl (fun acc x => insertBy le x acc) acc ↔ a ∈ acc ∨ a ∈ l) := by
  induction l with
  | nil => simp
  | cons x xs ih =>
      intro acc a
      simp only [List.foldl_cons, ih, mem_insertBy, List.mem_cons]
      tauto

theorem mem_sortBy {le : α → α → Bool} {l : List α} {a : α} :
    a ∈ sortBy le l ↔ a ∈ l := by
  simp [sortBy, mem_sortBy_aux]

theorem dedupById_fresh (l : List Reco) :
    ∀ (seen : List ℚ) (r : Reco), r ∈ dedupById seen l → r.event.id ∉ seen := by
  induction l with
  | nil => intro seen r h; simp [dedupById] at h
  | cons x xs ih =>
      intro seen r h
      simp only [dedupById] at h
      split_ifs at h with hx
      · exact ih seen r h
      · rcases List.mem_cons.mp h with rfl | hmem
        · simpa using hx
        · have hfresh := ih (x.event.id :: seen) r hmem
          exact fun hc => hfresh (List.mem_cons_of_mem _ hc)

theorem dedupById_mem (l : List Reco) :
    ∀ (seen : List ℚ) (r : Reco), r ∈ dedupById seen l → r ∈ l := by
  induction l with
  | nil => intro seen r h; simp [dedupById] at h
  | cons x xs ih =>
      intro seen r h
      simp only [dedupById] at h
      split_ifs at h with hx
      · exact List.mem_cons_of_mem _ (ih seen r h)
      · rcases List.mem_cons.mp h with rfl | hmem
        · exact List.mem_cons_self _ _
        · exact List.mem_cons_of_mem _ (ih _ r hmem)

theorem dedupById_nodup (l : List Reco) :
    ∀ (seen : List ℚ), ((dedupById seen l).map (fun r => r.event.id)).Nodup := by
  induction l with
  | nil => intro seen; simp [dedupById]
  | cons x xs ih =>
      intro seen
      simp only [dedupById]
      split_ifs with hx
      · exact ih seen
      · simp only [List.map_cons, List.nodup_cons]
        refine ⟨?_, ih (x.event.id :: seen)⟩
        intro hc
        rcases List.mem_map.mp hc with ⟨r, hr, hid⟩
        exact dedupById_fresh xs _ r hr (hid ▸ List.mem_cons_self _ _)

theorem dedupById_find (l : List Reco) :
    ∀ (seen : List ℚ) (r : Reco), r ∈ dedupById seen l →
      l.find? (fun x => x.event.id == r.event.id) = some r := by
  induction l with
  | nil => intro seen r h; simp [dedupById] at h
  | cons x xs ih =>
      intro seen r h
      simp only [dedupById] at h
      split_ifs at h with hx
      · have hfresh := dedupById_fresh xs seen r h
        have hne : (x.event.id == r.event.id) = false := by
          simp only [beq_eq_false_iff_ne, ne_eq]
          intro hc
          exact hfresh (hc ▸ hx)
        rw [List.find?_cons_of_neg _ (by simp [hne]), ih seen r h]
      · rcases List.mem_cons.mp h with rfl | hmem
        · rw [List.find?_cons_of_pos _ (by simp)]
        · have hfresh := dedupById_fresh xs (x.event.id :: seen) r hmem
          have hne : (x.event.id == r.event.id) = false := by
            simp only [beq_eq_false_iff_ne, ne_eq]
            intro hc
            exact hfresh (hc ▸ List.mem_cons_self _ _)
          rw [List.find?_cons_of_neg _ (by simp [hne]), ih _ r hmem]

theorem rule1_event_ne (events : List Event) (cid : ℚ) (c : Event) (rating : Nat) :
    ∀ r ∈ rule1 events cid c rating, (r.event.id == cid) = false := by
  intro r hr
  unfold rule1 at hr
  split_ifs at hr
  · rcases List.mem_map.mp hr with ⟨p, hp, rfl⟩
    have hp2 := mem_sortBy.mp (List.take_subset _ _ hp)
    rcases List.mem_map.mp hp2 with ⟨e, he, rfl⟩
    have := (List.mem_filter.mp he).2
    simpa using this
  · simp at hr

theorem rule2_event_ne (events : List Event) (cid : ℚ) (c : Event) (concerns : List String) :
    ∀ r ∈ rule2 events cid c concerns, (r.event.id == cid) = false := by
  intro r hr
  unfold rule2 at hr
  split_ifs at hr
  · rcases List.mem_map.mp hr with ⟨e, he, rfl⟩
    have he2 := mem_sortBy.mp (List.take_subset _ _ he)
    have := (List.mem_filter.mp (List.mem_of_mem_filter he2)).2
    simp only [Bool.and_eq_true, Bool.not_eq_eq_eq_not, Bool.not_true] at this
    simpa using this.1
  · simp at hr

theorem rule3_event_ne (env : Env) (events : List Event) (cid : ℚ) (c : Event)
    (concerns : List String) :
    ∀ r ∈ rule3 env events cid c concerns, (r.event.id == cid) = false := by
  intro r hr
  unfold rule3 at hr
  split_ifs at hr
  · rcases List.mem_map.mp hr with ⟨e, he, rfl⟩
    have he2 := mem_sortBy.mp (List.take_subset _ _ he)
    have := (List.mem_filter.mp (List.mem_of_mem_filter he2)).2
    simp only [Bool.and_eq_true, Bool.not_eq_eq_eq_not, Bool.not_true] at this
    simpa using this.1
  · simp at hr

theorem rule4_event_ne (env : Env) (events : List Event) (cid : ℚ) (concerns : List String) :
    ∀ r ∈ rule4 env events cid concerns, (r.event.id == cid) = false := by
  intro r hr
  unfold rule4 at hr
  split_ifs at hr
  · rcases List.mem_map.mp hr with ⟨e, he, rfl⟩
    have he2 := mem_sortBy.mp (List.take_subset _ _ he)
    have := (List.mem_filter.mp he2).2
    simp only [Bool.and_eq_true, Bool.not_eq_eq_eq_not, Bool.not_true] at this
    simpa using this.1
  · simp at hr

theorem rule5_event_ne (env : Env) (events : List Event) (cid : ℚ) (c : Event)
    (rating : Nat) (concerns : List String) :
    ∀ r ∈ rule5 env events cid c rating concerns, (r.event.id == cid) = false := by
  intro r hr
  unfold rule5 at hr
  split_ifs at hr
  · rcases List.mem_map.mp hr with ⟨e, he, rfl⟩
    have he2 := mem_sortBy.mp (List.take_subset _ _ he)
    have := (List.mem_filter.mp he2).2
    simp only [Bool.and_eq_true, Bool.not_eq_eq_eq_not, Bool.not_true] at this
    simpa using this.1
  · simp at hr

theorem candidateRecs_event_ne (env : Env) (events : List Event) (cid : ℚ) (c : Event)
    (rating : Nat) (concerns : List String) :
    ∀ r ∈ candidateRecs env events cid c rating concerns, (r.event.id == cid) = false := by
  intro r hr
  unfold candidateRecs at hr
  simp only [List.mem_append] at hr
  rcases hr with ((((h | h) | h) | h) | h)
  · exact rule1_event_ne events cid c rating r h
  · exact rule2_event_ne events cid c concerns r h
  · exact rule3_event_ne env events cid c concerns r h
  · exact rule4_event_ne env events cid concerns r h
  · exact rule5_event_ne env events cid c rating concerns r h

/-- C4: the recommendation list never contains the reviewed event, never
contains two entries with the same event id — when an event qualifies under
several rules the entry kept is the first occurrence in the fixed rule 1-5
candidate order — and has at most 4 entries. -/
theorem generateContextualRecommendations_contract (env : Env) (events : List Event)
    (cid : ℚ) (c : Event) (rating : Nat) (concerns : List String) :
    ((generateContextualRecommendations env events cid c rating concerns).all
      (fun r => !(r.event.id == cid)) = true) ∧
    ((generateContextualRecommendations env events cid c rating concerns).map
      (fun r => r.event.id)).Nodup ∧
    (generateContextualRecommendations env events cid c rating concerns).length ≤ 4 ∧
    ((generateContextualRecommendations env events cid c rating concerns).all
      (fun r => (candidateRecs env events cid c rating concerns).find?
        (fun x => x.event.id == r.event.id) == some r) = true) := by
  refine ⟨?_, ?_, ?_, ?_⟩
  · rw [List.all_eq_true]
    intro r hr
    have hmem := dedupById_mem _ [] r (List.take_subset _ _ hr)
    simp [candidateRecs_event_ne env events cid c rating concerns r hmem]
  · have h := dedupById_nodup (candidateRecs env events cid c rating concerns) []
    unfold generateContextualRecommendations
    rw [List.map_take]
    exact h.sublist (List.take_sublist _ _)
  · exact le_trans (List.length_take_le _ _) (le_refl 4)
  · rw [List.all_eq_true]
    intro r hr
    have h := dedupById_find _ [] r (List.take_subset _ _ hr)
    simp [h]

end CFE
